import Mathlib

/-!
Verification of the access-serialization layer and tool handlers of
`jons-mcp-reminders`, a Python MCP server exposing macOS Reminders (EventKit).

The Python source is shallowly embedded: pure tool-handler logic becomes Lean
functions, the native EventKit calls become explicit function parameters (the
native store is an external collaborator), and the async serialization in
`ReminderStore.run_eventkit` becomes a small-step transition system over an
explicit scheduler state.
-/

namespace JonsMcpReminders

/-! ## Configuration constants

`constants.py` and the module-level constant of `store.py`.
-/

/-- `constants.py` line 6:
`REQUEST_TIMEOUT: float = float(os.environ.get("REQUEST_TIMEOUT", "60.0"))`.
Modelled over the parsed numeric value of the environment variable
(`none` when the variable is unset); float parsing itself is out-of-scope
data conversion, so the parameter is already the parsed number. -/
def REQUEST_TIMEOUT (envRequestTimeout : Option ℚ) : ℚ :=
  envRequestTimeout.getD 60

/-- `store.py` line 44: `DEFAULT_TIMEOUT = 60`, a module-level constant that
does not read the environment. -/
def DEFAULT_TIMEOUT : ℕ := 60

/-- `store.py` line 88: the permission-handshake wait is
`event.wait(timeout=DEFAULT_TIMEOUT)`; its deadline is the fixed
`DEFAULT_TIMEOUT`, independent of any environment setting. -/
def handshakeWaitTimeout : ℚ := (DEFAULT_TIMEOUT : ℚ)

/-- `store.py` line 334: the fetch-completion wait in `get_reminders_sync` is
`event.wait(timeout=DEFAULT_TIMEOUT)`; same fixed deadline. -/
def fetchWaitTimeout : ℚ := (DEFAULT_TIMEOUT : ℚ)

/-! ## Plain data produced inside the worker thread

`ek_reminder_to_dict` / `ek_calendar_to_dict` (converters.py) decompose native
objects into plain dicts inside the worker thread. The conversion itself is
out-of-scope field mapping; the tool handlers only ever inspect the `title`
and `notes` keys (search) besides carrying the dicts through, so those two
keys are modelled together with `id` (which keeps distinct reminders
distinguishable). `Option` models a missing/`None` dict value. -/
structure ReminderData where
  id : String
  title : Option String
  notes : Option String
  deriving DecidableEq, Repr

/-- Plain dict for one reminder list, as produced by `ek_calendar_to_dict`. -/
structure ListData where
  id : String
  title : String
  color : Option String
  is_default : Bool
  deriving DecidableEq, Repr

/-- JSON-level shape of a tool handler's return value: either a dict holding a
single named list field (`return {"reminders": [...]}`), or a bare list
(`return [...]`). -/
inductive ToolReturn (α : Type) where
  | wrapped (field : String) (items : List α)
  | bare (items : List α)
  deriving DecidableEq, Repr

/-- The collection carried by a tool return value, whatever its shape. -/
def ToolReturn.items : ToolReturn α → List α
  | .wrapped _ xs => xs
  | .bare xs => xs

/-! ## Pagination

`_paginate` is defined identically in `tools/reminders.py` and
`tools/search.py`:

```python
if offset:
    items = items[offset:]
if limit is not None:
    items = items[:limit]
return items
```
-/

/-- `_paginate(items, offset, limit)`. `if offset:` is Python truthiness, i.e.
the slice is only taken for a nonzero offset (same list either way). -/
def paginate (items : List α) (offset : ℕ) (limit : Option ℕ) : List α :=
  let items := if offset ≠ 0 then items.drop offset else items
  match limit with
  | some l => items.take l
  | none => items

/-! ## Tool handlers returning collections

The native fetch performed via
`run_eventkit(store.get_reminders_sync, ...)` is the external input; each
handler takes the fetched plain-data list as its `fetched` argument. The
final `Reminder(**data)` / `ReminderList(**data)` pydantic construction is a
field-for-field repackaging of the same dict and is kept as the identity. -/

/-- `tools/reminders.py get_reminders`: paginate the fetched list and wrap it
in the named `"reminders"` field (`return {"reminders": [...]}`). -/
def get_reminders (fetched : List ReminderData) (offset : ℕ) (limit : Option ℕ) :
    ToolReturn ReminderData :=
  .wrapped "reminders" (paginate fetched offset limit)

/-- `tools/lists.py list_reminder_lists`: wrap the fetched calendar list in the
named `"lists"` field (`return {"lists": [...]}`). -/
def list_reminder_lists (fetched : List ListData) : ToolReturn ListData :=
  .wrapped "lists" fetched

/-! ## Search

`tools/search.py search_reminders` filters the fetched reminders by a
case-insensitive substring test on title/notes, paginates, and returns the
resulting list bare (`return [Reminder(**data) for data in paginated]`). -/

/-- Python's `needle in hay` on lists of characters: `true` iff `needle`
occurs contiguously in `hay`. -/
def containsSub [DecidableEq α] (hay needle : List α) : Bool :=
  needle.isPrefixOf hay ||
    match hay with
    | [] => false
    | _ :: t => containsSub t needle

/-- Python's `needle in hay` on strings. -/
def strContains (hay needle : String) : Bool :=
  containsSub hay.data needle.data

/-- The per-reminder predicate of `search_reminders`:
`title = data.get("title", "") or ""` (likewise notes), then
`query_lower in title.lower() or query_lower in notes.lower()`. -/
def searchMatches (query : String) (d : ReminderData) : Bool :=
  let queryLower := query.toLower
  strContains (d.title.getD "").toLower queryLower ||
    strContains (d.notes.getD "").toLower queryLower

/-- The `matching` list built by the loop in `search_reminders` before
pagination, in fetch order. -/
def searchMatching (fetched : List ReminderData) (query : String) :
    List ReminderData :=
  fetched.filter (searchMatches query)

/-- `tools/search.py search_reminders` after the store fetch: filter, paginate,
and return the list bare. -/
def search_reminders (fetched : List ReminderData) (query : String)
    (offset : ℕ) (limit : Option ℕ) : ToolReturn ReminderData :=
  .bare (paginate (searchMatching fetched query) offset limit)

/-! ## Batch tools

`tools/batch.py`. Each per-item native call
(`run_eventkit(store.complete_reminder_sync, id, True)` etc.) is abstracted as
a function argument returning either the resulting data or the raised
exception's `str(e)` message. -/

/-- `models.py BatchResult`. -/
structure BatchResult where
  successes : ℕ
  failures : ℕ
  failed_ids : List String
  errors : List String
  deriving DecidableEq, Repr

/-- The accumulator loop of `complete_reminders` (`tools/batch.py` lines
26-35): per-id try/except, counting successes/failures and collecting
`failed_ids`/`errors` in input order. -/
def completeLoop (res : String → Except String ReminderData) :
    List String → BatchResult → BatchResult
  | [], acc => acc
  | rid :: rest, acc =>
    match res rid with
    | .ok _ => completeLoop res rest { acc with successes := acc.successes + 1 }
    | .error e =>
        completeLoop res rest
          { acc with
            failures := acc.failures + 1
            failed_ids := acc.failed_ids ++ [rid]
            errors := acc.errors ++ [e] }

/-- `tools/batch.py complete_reminders`: fold the loop from zeroed counters. -/
def complete_reminders (res : String → Except String ReminderData)
    (reminder_ids : List String) : BatchResult :=
  completeLoop res reminder_ids ⟨0, 0, [], []⟩

/-- The accumulator loop of `delete_reminders` (`tools/batch.py` lines 64-71),
identical in shape to `completeLoop`; the native call returns `True` on
success. -/
def deleteLoop (res : String → Except String Bool) :
    List String → BatchResult → BatchResult
  | [], acc => acc
  | rid :: rest, acc =>
    match res rid with
    | .ok _ => deleteLoop res rest { acc with successes := acc.successes + 1 }
    | .error e =>
        deleteLoop res rest
          { acc with
            failures := acc.failures + 1
            failed_ids := acc.failed_ids ++ [rid]
            errors := acc.errors ++ [e] }

/-- `tools/batch.py delete_reminders`. -/
def delete_reminders (res : String → Except String Bool)
    (reminder_ids : List String) : BatchResult :=
  deleteLoop res reminder_ids ⟨0, 0, [], []⟩

/-- `tools/batch.py add_reminders`: per-title try/except around
`create_reminder_sync(title, list_id, None, None, None, None, 0)` (the
`list_id` is curried into `create`); successes are appended to `created`,
failed items are silently skipped (`except Exception: pass`), and the bare
list of created reminders is returned. -/
def add_reminders (create : String → Except String ReminderData)
    (items : List String) : List ReminderData :=
  match items with
  | [] => []
  | title :: rest =>
    match create title with
    | .ok d => d :: add_reminders create rest
    | .error _ => add_reminders create rest

/-! ## Typed errors

`exceptions.py`. Only the discriminating payloads the store code constructs
are modelled. -/

/-- The `RemindersError` taxonomy of `exceptions.py`. -/
inductive RemErr where
  | accessDenied
  | permissionTimeout (seconds : ℕ)
  | notFound (resourceType : String) (resourceId : String)
  | noWritableSource
  | eventKit (message : String)
  | fetchTimeout (message : String)
  deriving DecidableEq, Repr

/-! ## Singleton initialization and permission handshake

`ReminderStore.get_instance` / `__init__` / `_request_access_sync`
(`store.py` lines 62-109), single-caller view (the double-checked lock only
matters under concurrency; each call below is one uncontended call). The
native side — the user's response to the k-th permission prompt the process
issues — is the environment function `env`. -/

/-- Outcome of one permission handshake, combining the completion callback's
`(granted, error)` pair with the 60-second wait: checked in source order
timeout first, then error, then granted. -/
inductive PermResponse where
  | granted
  | denied
  | nserror (message : String)
  | timedOut
  deriving DecidableEq, Repr

/-- Process-wide state of the singleton: `inst` is `ReminderStore._instance`
(`some ()` once an instance with access granted is committed), `handshakes`
counts how many permission handshakes the process has initiated
(`requestFullAccessToRemindersWithCompletion_` calls). -/
structure ProcState where
  inst : Option Unit
  handshakes : ℕ
  deriving DecidableEq, Repr

/-- `ReminderStore.get_instance()`: return the committed singleton if present;
otherwise construct one, which runs `_request_access_sync` — initiating
exactly one new permission handshake — and commits the instance only when
access is granted. On denial/error/timeout the constructor raises and
`_instance` stays `None`. -/
def get_instance (env : ℕ → PermResponse) (s : ProcState) :
    ProcState × Except RemErr Unit :=
  match s.inst with
  | some _ => (s, .ok ())
  | none =>
    let s' : ProcState := { s with handshakes := s.handshakes + 1 }
    match env s.handshakes with
    | .timedOut => (s', .error (.permissionTimeout DEFAULT_TIMEOUT))
    | .nserror m => (s', .error (.eventKit m))
    | .denied => (s', .error .accessDenied)
    | .granted => ({ s' with inst := some () }, .ok ())

/-! ## Reminder update path

`ReminderStore.update_reminder_sync` (`store.py` lines 437-500) together with
its helpers `_get_reminder_by_id` and `_remove_location_alarms`, and the tool
wrapper `tools/reminders.py update_reminder`. The native object model
(EKReminder, EKAlarm, NSDateComponents) is embedded as plain structures
holding exactly the fields the update path reads or writes. -/

/-- A Python `datetime` as far as `datetime_to_components` reads it. -/
structure DatetimeM where
  year : ℤ
  month : ℕ
  day : ℕ
  hour : ℕ
  minute : ℕ
  second : ℕ
  deriving DecidableEq, Repr

/-- An `NSDateComponents` as built by `converters.py datetime_to_components`. -/
structure NSDateComponentsM where
  year : ℤ
  month : ℕ
  day : ℕ
  hour : ℕ
  minute : ℕ
  second : ℕ
  deriving DecidableEq, Repr

/-- `converters.py datetime_to_components`: copy year/month/day/hour/minute/
second into fresh components. -/
def datetime_to_components (dt : DatetimeM) : NSDateComponentsM :=
  ⟨dt.year, dt.month, dt.day, dt.hour, dt.minute, dt.second⟩

/-- Trigger proximity (`models.py Proximity` / the EKAlarmProximity
constants). -/
inductive ProximityM where
  | enter
  | leave
  deriving DecidableEq, Repr

/-- `models.py LocationTrigger` (coordinates as exact rationals; float
rounding is out of scope, no arithmetic is performed on them). -/
structure LocationTriggerM where
  title : String
  latitude : ℚ
  longitude : ℚ
  radius : ℚ
  proximity : ProximityM
  deriving DecidableEq, Repr

/-- An `EKStructuredLocation` as built by `location_trigger_to_ek_alarm`. -/
structure StructuredLocationM where
  title : String
  latitude : ℚ
  longitude : ℚ
  radius : ℚ
  deriving DecidableEq, Repr

/-- An `EKAlarm` as far as the update path reads it: its structured location
(present exactly for location-based alarms) and proximity. -/
structure EKAlarmM where
  structuredLocation : Option StructuredLocationM
  proximity : Option ProximityM
  deriving DecidableEq, Repr

/-- `converters.py location_trigger_to_ek_alarm`: a fresh alarm carrying the
structured location and the enter/leave proximity. -/
def location_trigger_to_ek_alarm (l : LocationTriggerM) : EKAlarmM :=
  { structuredLocation := some ⟨l.title, l.latitude, l.longitude, l.radius⟩
    proximity := some l.proximity }

/-- An `EKReminder` native object, restricted to the mutable fields the store
code touches. -/
structure EKReminderM where
  title : String
  notes : Option String
  url : Option String
  dueDateComponents : Option NSDateComponentsM
  startDateComponents : Option NSDateComponentsM
  priority : ℤ
  alarms : List EKAlarmM
  isCompleted : Bool
  deriving DecidableEq, Repr

/-- `store.py _remove_location_alarms`: remove every alarm whose
`structuredLocation()` is not `None`, keeping the rest in order. -/
def removeLocationAlarms (r : EKReminderM) : EKReminderM :=
  { r with alarms := r.alarms.filter (fun a => a.structuredLocation.isNone) }

/-- The field-mutation body of `update_reminder_sync` (`store.py` lines
471-492) applied to the looked-up reminder: each scalar field is set only
under its `is not None` guard; then `clear_location` removes location alarms,
else a provided `location` replaces them with one freshly converted alarm
(`addAlarm_` appends). -/
def applyReminderUpdate (r : EKReminderM)
    (title notes url : Option String)
    (due_date start_date : Option DatetimeM)
    (priority : Option ℤ)
    (location : Option LocationTriggerM)
    (clear_location : Bool) : EKReminderM :=
  let r := match title with
    | some t => { r with title := t }
    | none => r
  let r := match notes with
    | some nt => { r with notes := some nt }
    | none => r
  let r := match url with
    | some u => { r with url := some u }
    | none => r
  let r := match due_date with
    | some d => { r with dueDateComponents := some (datetime_to_components d) }
    | none => r
  let r := match start_date with
    | some sd => { r with startDateComponents := some (datetime_to_components sd) }
    | none => r
  let r := match priority with
    | some p => { r with priority := p }
    | none => r
  if clear_location then
    removeLocationAlarms r
  else
    match location with
    | some loc =>
      let r := removeLocationAlarms r
      { r with alarms := r.alarms ++ [location_trigger_to_ek_alarm loc] }
    | none => r

/-- The native lookup surface used by `_get_reminder_by_id`: the store's
`calendarItemWithIdentifier_` (local id, may also return a non-reminder item,
modelled as `none`) and `calendarItemsWithExternalIdentifier_` (already
restricted to its `EKReminder` members, in iteration order). -/
structure StoreM where
  calendarItemWithIdentifier : String → Option EKReminderM
  calendarItemsWithExternalIdentifier : String → List EKReminderM

/-- `store.py _get_reminder_by_id`: local-identifier lookup first, then the
first reminder of the external-identifier lookup, else `NotFoundError`. -/
def getReminderById (st : StoreM) (reminder_id : String) :
    Except RemErr EKReminderM :=
  match st.calendarItemWithIdentifier reminder_id with
  | some r => .ok r
  | none =>
    match (st.calendarItemsWithExternalIdentifier reminder_id).head? with
    | some r => .ok r
    | none => .error (.notFound "Reminder" reminder_id)

/-- `store.py update_reminder_sync`: look the reminder up, mutate its fields,
then `saveReminder_commit_error_` (the native save, abstracted as `save`);
a failed save raises `EventKitError`, a successful one returns the updated
reminder's data. -/
def update_reminder_sync (st : StoreM) (save : EKReminderM → Bool)
    (reminder_id : String)
    (title notes url : Option String)
    (due_date start_date : Option DatetimeM)
    (priority : Option ℤ)
    (location : Option LocationTriggerM)
    (clear_location : Bool) : Except RemErr EKReminderM :=
  match getReminderById st reminder_id with
  | .error e => .error e
  | .ok r =>
    let r := applyReminderUpdate r title notes url due_date start_date priority
      location clear_location
    if save r then .ok r
    else .error (.eventKit ("Failed to update reminder: " ++ reminder_id))

/-- `models.py Priority` (IntEnum). -/
inductive PriorityM where
  | nonePrio
  | high
  | medium
  | low
  deriving DecidableEq, Repr

/-- `int(priority)` on the enum: NONE=0, HIGH=1, MEDIUM=5, LOW=9. -/
def PriorityM.toInt : PriorityM → ℤ
  | .nonePrio => 0
  | .high => 1
  | .medium => 5
  | .low => 9

/-- `tools/reminders.py update_reminder`: pass every argument through to
`update_reminder_sync`, converting the priority enum with
`int(priority) if priority is not None else None`. -/
def update_reminder (st : StoreM) (save : EKReminderM → Bool)
    (reminder_id : String)
    (title notes url : Option String)
    (due_date start_date : Option DatetimeM)
    (priority : Option PriorityM)
    (location : Option LocationTriggerM)
    (clear_location : Bool) : Except RemErr EKReminderM :=
  update_reminder_sync st save reminder_id title notes url due_date start_date
    (priority.map PriorityM.toInt) location clear_location

/-! ## The access serializer: `ReminderStore.run_eventkit`

`store.py` lines 118-142:

```python
limiter = cls._get_limiter()          # the one anyio.CapacityLimiter(1)
async with limiter:                   # acquire the single permit (FIFO queue)
    def wrapped():
        with objc.autorelease_pool():
            return fn(*args)
    return await anyio.to_thread.run_sync(wrapped)
```

Embedded as a small-step transition system over the joint state of `n`
logical callers of `run_eventkit` plus the limiter. Each caller follows the
body of `run_eventkit`: it is created, awaits the single capacity-limiter
permit (queueing FIFO while it is held, as `anyio.CapacityLimiter` does),
then — still holding the permit — executes its synchronous native operation
in the worker thread, and finally leaves the `async with` block, which
releases the permit on normal return and on exception alike. `raises t`
records whether caller `t`'s operation raises. The `trace` logs the begin/end
of each native call's execution window, and `grants` logs the order in which
the limiter hands out its one permit. -/

/-- Where one `run_eventkit` caller stands in the body of the function. -/
inductive TaskPhase where
  | started
  | awaitingPermit
  | executing
  | finished (raised : Bool)
  deriving DecidableEq, Repr

/-- `true` once the caller has left the `async with` block (its operation has
returned or raised and the permit was released). -/
def TaskPhase.isFinished : TaskPhase → Bool
  | .finished _ => true
  | _ => false

/-- One timestamped event of a native call's execution window. -/
inductive RunEvent (n : ℕ) where
  | enter (t : Fin n)
  | leave (t : Fin n)
  deriving DecidableEq, Repr

/-- Joint state of `n` concurrent `run_eventkit` callers and the single
`CapacityLimiter(1)`. -/
structure RunState (n : ℕ) where
  phase : Fin n → TaskPhase
  holder : Option (Fin n)
  queue : List (Fin n)
  grants : List (Fin n)
  trace : List (RunEvent n)

/-- All callers created, nothing submitted yet, permit free. -/
def RunState.init (n : ℕ) : RunState n :=
  { phase := fun _ => .started
    holder := none
    queue := []
    grants := []
    trace := [] }

/-- The scheduler's possible moves, one caller progressing per step:
`request` enters the `async with` statement and joins the limiter's FIFO
queue; `grant` hands the free permit to the queue's head, which immediately
dispatches its native call to the worker thread (the execution window opens);
`finish` is the native call returning or raising, upon which the `async with`
block releases the permit either way and the caller observes the result or
the re-raised exception. -/
inductive RunStep (n : ℕ) (raises : Fin n → Bool) :
    RunState n → RunState n → Prop where
  | request (t : Fin n) (s : RunState n)
      (hp : s.phase t = .started) :
      RunStep n raises s
        { s with
          phase := Function.update s.phase t .awaitingPermit
          queue := s.queue ++ [t] }
  | grant (t : Fin n) (q : List (Fin n)) (s : RunState n)
      (hfree : s.holder = none) (hq : s.queue = t :: q)
      (hp : s.phase t = .awaitingPermit) :
      RunStep n raises s
        { s with
          phase := Function.update s.phase t .executing
          holder := some t
          queue := q
          grants := s.grants ++ [t]
          trace := s.trace ++ [.enter t] }
  | finish (t : Fin n) (s : RunState n)
      (hp : s.phase t = .executing) (hold : s.holder = some t) :
      RunStep n raises s
        { s with
          phase := Function.update s.phase t (.finished (raises t))
          holder := none
          trace := s.trace ++ [.leave t] }

/-- States the system can reach from the all-started initial state. -/
def RunReachable (n : ℕ) (raises : Fin n → Bool) (s : RunState n) : Prop :=
  Relation.ReflTransGen (RunStep n raises) (RunState.init n) s

/-- Replaying one event over the set of currently open execution windows. -/
def windowStep {n : ℕ} (w : List (Fin n)) : RunEvent n → List (Fin n)
  | .enter t => w ++ [t]
  | .leave t => w.erase t

/-- The execution windows still open after a trace: native calls that have
begun but not ended. -/
def openWindows {n : ℕ} (es : List (RunEvent n)) : List (Fin n) :=
  es.foldl windowStep []

/-- The callers whose native call began, in begin order. -/
def enterTasks {n : ℕ} (es : List (RunEvent n)) : List (Fin n) :=
  es.filterMap fun e =>
    match e with
    | .enter t => some t
    | .leave _ => none

/-- Remaining steps of one caller, used as the termination measure. -/
def phaseWeight : TaskPhase → ℕ
  | .started => 3
  | .awaitingPermit => 2
  | .executing => 1
  | .finished _ => 0

/-- Total remaining work of the system. -/
def remainingWork {n : ℕ} (s : RunState n) : ℕ :=
  ∑ t : Fin n, phaseWeight (s.phase t)

/-- Whether a tool return value is a dict with a named field (`true`) or a
bare list (`false`). -/
def ToolReturn.isWrapped : ToolReturn α → Bool
  | .wrapped _ _ => true
  | .bare _ => false

/-- The `str(e)` message recorded for a failing batch item (`""` for an item
that did not fail; never consulted in that case). -/
def errMsg {α : Type} (res : String → Except String α) (i : String) : String :=
  match res i with
  | .error e => e
  | .ok _ => ""

/-- A concrete per-item outcome function for the batch example: resolving and
completing succeeds for every id except `"b"`. -/
def onlyBFails : String → Except String ReminderData := fun i =>
  if i = "b" then .error "Reminder not found: b" else .ok ⟨i, none, none⟩

/-- A concrete stored reminder used to instantiate the update-path theorems. -/
def sampleReminder : EKReminderM :=
  { title := "Buy milk"
    notes := some "2 liters"
    url := none
    dueDateComponents := some ⟨2024, 1, 1, 10, 0, 0⟩
    startDateComponents := none
    priority := 1
    alarms := [⟨none, none⟩]
    isCompleted := false }

/-- A concrete native lookup surface holding `sampleReminder` under the local
identifier `"r1"`. -/
def sampleStore : StoreM :=
  { calendarItemWithIdentifier := fun i =>
      if i = "r1" then some sampleReminder else none
    calendarItemsWithExternalIdentifier := fun _ => [] }

/-! ### Invariants of the serializer -/

/-- The inductive invariant tying the permit holder, the FIFO queue, the
phases, and the event trace together. -/
structure RunInv {n : ℕ} (s : RunState n) : Prop where
  holder_executing : ∀ t, s.holder = some t → s.phase t = .executing
  executing_holder : ∀ t, s.phase t = .executing → s.holder = some t
  queue_awaiting : ∀ t ∈ s.queue, s.phase t = .awaitingPermit
  awaiting_queue : ∀ t, s.phase t = .awaitingPermit → t ∈ s.queue
  queue_nodup : s.queue.Nodup
  open_trace : openWindows s.trace = s.holder.toList
  open_prefix : ∀ pre, pre <+: s.trace → (openWindows pre).length ≤ 1
  trace_grants : enterTasks s.trace = s.grants

theorem openWindows_concat {n : ℕ} (es : List (RunEvent n)) (e : RunEvent n) :
    openWindows (es ++ [e]) = windowStep (openWindows es) e := by
  simp [openWindows, List.foldl_append]

theorem enterTasks_concat_enter {n : ℕ} (es : List (RunEvent n)) (t : Fin n) :
    enterTasks (es ++ [.enter t]) = enterTasks es ++ [t] := by
  simp [enterTasks]

theorem enterTasks_concat_leave {n : ℕ} (es : List (RunEvent n)) (t : Fin n) :
    enterTasks (es ++ [.leave t]) = enterTasks es := by
  simp [enterTasks]

theorem prefix_concat_cases {α : Type} {pre l : List α} {e : α}
    (h : pre <+: l ++ [e]) : pre <+: l ∨ pre = l ++ [e] := by
  rcases Nat.lt_or_ge pre.length (l ++ [e]).length with hlt | hge
  · left
    have hlen : pre.length ≤ l.length := by
      simp only [List.length_append, List.length_singleton] at hlt
      omega
    exact List.prefix_of_prefix_length_le h (List.prefix_append l [e]) hlen
  · right
    have hlen : pre.length = (l ++ [e]).length :=
      le_antisymm (List.IsPrefix.length_le h) hge
    exact List.IsPrefix.eq_of_length h hlen

theorem runInv_init (n : ℕ) : RunInv (RunState.init n) := by
  constructor
  · intro t ht; simp [RunState.init] at ht
  · intro t ht; simp [RunState.init] at ht
  · intro t ht; simp [RunState.init] at ht
  · intro t ht; simp [RunState.init] at ht
  · simp [RunState.init]
  · rfl
  · intro pre hpre
    have : pre = [] := List.prefix_nil.mp hpre
    simp [this, openWindows]
  · rfl

theorem runInv_step {n : ℕ} {raises : Fin n → Bool} {s s' : RunState n}
    (inv : RunInv s) (h : RunStep n raises s s') : RunInv s' := by
  cases h with
  | request t s hp =>
    constructor
    · intro u hu
      have hex := inv.holder_executing u hu
      have hut : u ≠ t := by
        intro he; rw [he, hp] at hex; cases hex
      simpa [Function.update_noteq hut] using hex
    · intro u hu
      by_cases hut : u = t
      · subst hut; simp [Function.update_same] at hu
      · simp only [Function.update_noteq hut] at hu
        exact inv.executing_holder u hu
    · intro u hu
      rcases List.mem_append.mp hu with hm | hm
      · have haw := inv.queue_awaiting u hm
        have hut : u ≠ t := by
          intro he; rw [he, hp] at haw; cases haw
        simpa [Function.update_noteq hut] using haw
      · have : u = t := by simpa using hm
        subst this; simp [Function.update_same]
    · intro u hu
      by_cases hut : u = t
      · subst hut; exact List.mem_append.mpr (Or.inr (by simp))
      · simp only [Function.update_noteq hut] at hu
        exact List.mem_append.mpr (Or.inl (inv.awaiting_queue u hu))
    · have hnotmem : t ∉ s.queue := by
        intro hmem
        have := inv.queue_awaiting t hmem
        rw [hp] at this; cases this
      simp [List.nodup_append, inv.queue_nodup, hnotmem]
    · exact inv.open_trace
    · exact inv.open_prefix
    · exact inv.trace_grants
  | grant t q s hfree hq hp =>
    have hnodup : (t :: q).Nodup := hq ▸ inv.queue_nodup
    have htq : t ∉ q := (List.nodup_cons.mp hnodup).1
    constructor
    · intro u hu
      have hut : t = u := by simpa using hu
      subst hut; simp [Function.update_same]
    · intro u hu
      by_cases hut : u = t
      · subst hut; rfl
      · simp only [Function.update_noteq hut] at hu
        have := inv.executing_holder u hu
        rw [hfree] at this; cases this
    · intro u hu
      have hmem : u ∈ s.queue := by rw [hq]; exact List.mem_cons_of_mem _ hu
      have haw := inv.queue_awaiting u hmem
      have hut : u ≠ t := fun he => htq (he ▸ hu)
      simpa [Function.update_noteq hut] using haw
    · intro u hu
      by_cases hut : u = t
      · subst hut; simp [Function.update_same] at hu
      · simp only [Function.update_noteq hut] at hu
        have := inv.awaiting_queue u hu
        rw [hq] at this
        rcases List.mem_cons.mp this with he | hm
        · exact absurd he hut
        · exact hm
    · exact (List.nodup_cons.mp hnodup).2
    · rw [openWindows_concat, inv.open_trace, hfree]
      rfl
    · intro pre hpre
      rcases prefix_concat_cases hpre with hp2 | hp2
      · exact inv.open_prefix pre hp2
      · rw [hp2, openWindows_concat, inv.open_trace, hfree]
        rfl
    · rw [enterTasks_concat_enter, inv.trace_grants]
  | finish t s hp hold =>
    constructor
    · intro u hu; cases hu
    · intro u hu
      by_cases hut : u = t
      · subst hut; simp [Function.update_same] at hu
      · simp only [Function.update_noteq hut] at hu
        have := inv.executing_holder u hu
        rw [hold] at this
        exact absurd (by simpa using this.symm) hut
    · intro u hu
      have haw := inv.queue_awaiting u hu
      have hut : u ≠ t := by
        intro he; rw [he, hp] at haw; cases haw
      simpa [Function.update_noteq hut] using haw
    · intro u hu
      by_cases hut : u = t
      · subst hut; simp [Function.update_same] at hu
      · simp only [Function.update_noteq hut] at hu
        exact inv.awaiting_queue u hu
    · exact inv.queue_nodup
    · rw [openWindows_concat, inv.open_trace, hold]
      simp [windowStep]
    · intro pre hpre
      rcases prefix_concat_cases hpre with hp2 | hp2
      · exact inv.open_prefix pre hp2
      · rw [hp2, openWindows_concat, inv.open_trace, hold]
        simp [windowStep]
    · rw [enterTasks_concat_leave]
      exact inv.trace_grants

theorem runReachable_inv {n : ℕ} {raises : Fin n → Bool} {s : RunState n}
    (h : RunReachable n raises s) : RunInv s := by
  induction h with
  | refl => exact runInv_init n
  | tail _ hstep ih => exact runInv_step ih hstep

/-! ### Progress and termination of the serializer -/

theorem runStep_exists {n : ℕ} {raises : Fin n → Bool} {s : RunState n}
    (inv : RunInv s) (hne : ∃ t, (s.phase t).isFinished = false) :
    ∃ s', RunStep n raises s s' := by
  classical
  by_cases hstart : ∃ t, s.phase t = .started
  · obtain ⟨t, ht⟩ := hstart
    exact ⟨_, .request t s ht⟩
  · cases hh : s.holder with
    | some t => exact ⟨_, .finish t s (inv.holder_executing t hh) hh⟩
    | none =>
      obtain ⟨t, ht⟩ := hne
      cases hp : s.phase t with
      | started => exact absurd ⟨t, hp⟩ hstart
      | finished b => rw [hp] at ht; simp [TaskPhase.isFinished] at ht
      | executing =>
        have := inv.executing_holder t hp
        rw [hh] at this; cases this
      | awaitingPermit =>
        have hmem := inv.awaiting_queue t hp
        cases hq : s.queue with
        | nil => rw [hq] at hmem; cases hmem
        | cons hd rest =>
          have hph := inv.queue_awaiting hd (by rw [hq]; exact List.mem_cons_self _ _)
          exact ⟨_, .grant hd rest s hh hq hph⟩

theorem sum_phaseWeight_update {n : ℕ} (f : Fin n → TaskPhase) (t : Fin n)
    (v : TaskPhase) :
    (∑ x : Fin n, phaseWeight (Function.update f t v x)) + phaseWeight (f t)
      = (∑ x : Fin n, phaseWeight (f x)) + phaseWeight v := by
  classical
  have hcong : ∀ x ∈ Finset.univ,
      phaseWeight (Function.update f t v x)
        = Function.update (fun y => phaseWeight (f y)) t (phaseWeight v) x := by
    intro x _
    by_cases hx : x = t
    · subst hx; simp
    · simp [Function.update_noteq hx]
  rw [Finset.sum_congr rfl hcong,
    Finset.sum_update_of_mem (Finset.mem_univ t),
    ← Finset.sum_erase_add Finset.univ _ (Finset.mem_univ t),
    Finset.erase_eq]
  omega

theorem runStep_measure {n : ℕ} {raises : Fin n → Bool} {s s' : RunState n}
    (h : RunStep n raises s s') : remainingWork s' + 1 = remainingWork s := by
  cases h with
  | request t s hp =>
    have := sum_phaseWeight_update s.phase t .awaitingPermit
    rw [hp] at this
    simp only [remainingWork, phaseWeight] at this ⊢
    omega
  | grant t q s hfree hq hp =>
    have := sum_phaseWeight_update s.phase t .executing
    rw [hp] at this
    simp only [remainingWork, phaseWeight] at this ⊢
    omega
  | finish t s hp hold =>
    have := sum_phaseWeight_update s.phase t (.finished (raises t))
    rw [hp] at this
    simp only [remainingWork, phaseWeight] at this ⊢
    omega

theorem allFinished_holder_none {n : ℕ} {raises : Fin n → Bool}
    {s : RunState n} (h : RunReachable n raises s)
    (hall : ∀ t, (s.phase t).isFinished = true) : s.holder = none := by
  cases hh : s.holder with
  | none => rfl
  | some t =>
    have hex := (runReachable_inv h).holder_executing t hh
    have := hall t
    rw [hex] at this
    simp [TaskPhase.isFinished] at this

theorem run_completion {n : ℕ} {raises : Fin n → Bool} :
    ∀ (k : ℕ) (s : RunState n), RunReachable n raises s → remainingWork s ≤ k →
      ∃ s', Relation.ReflTransGen (RunStep n raises) s s' ∧
        (∀ t, (s'.phase t).isFinished = true) ∧ s'.holder = none := by
  intro k
  induction k with
  | zero =>
    intro s hr hm
    have hall : ∀ t, (s.phase t).isFinished = true := by
      intro t
      have hz : phaseWeight (s.phase t) = 0 := by
        have hsum : remainingWork s = 0 := Nat.le_zero.mp hm
        have := (Finset.sum_eq_zero_iff.mp hsum) t (Finset.mem_univ t)
        exact this
      cases hpt : s.phase t <;> rw [hpt] at hz <;>
        simp [phaseWeight, TaskPhase.isFinished] at hz ⊢
    exact ⟨s, Relation.ReflTransGen.refl, hall, allFinished_holder_none hr hall⟩
  | succ k ih =>
    intro s hr hm
    classical
    by_cases hfin : ∀ t, (s.phase t).isFinished = true
    · exact ⟨s, Relation.ReflTransGen.refl, hfin, allFinished_holder_none hr hfin⟩
    · push_neg at hfin
      obtain ⟨t, ht⟩ := hfin
      obtain ⟨s₁, hstep⟩ :=
        @runStep_exists n raises s (runReachable_inv hr)
          ⟨t, by simpa using ht⟩
      have hr₁ : RunReachable n raises s₁ := hr.tail hstep
      have hm₁ : remainingWork s₁ ≤ k := by
        have := runStep_measure hstep
        omega
      obtain ⟨s', hsteps, hall, hnone⟩ := ih s₁ hr₁ hm₁
      exact ⟨s', Relation.ReflTransGen.head hstep hsteps, hall, hnone⟩

/-! ## Claim theorems -/

/-- C1: for every set of concurrently awaiting callers of
`ReminderStore.run_eventkit`, in every reachable state of the serializer at
most one dispatched native operation is executing; at no point in the
history do two native calls' execution windows overlap (every prefix of the
event trace has at most one open window); and the native calls begin
execution exactly in the order the single capacity-limiter permit is
granted. -/
theorem spec_C1_native_calls_serialized {n : ℕ} (raises : Fin n → Bool)
    (s : RunState n) (h : RunReachable n raises s) :
    (∀ t₁ t₂ : Fin n, s.phase t₁ = .executing → s.phase t₂ = .executing →
      t₁ = t₂) ∧
    (∀ pre, pre <+: s.trace → (openWindows pre).length ≤ 1) ∧
    enterTasks s.trace = s.grants := by
  have inv := runReachable_inv h
  refine ⟨?_, inv.open_prefix, inv.trace_grants⟩
  intro t₁ t₂ h1 h2
  have a1 := inv.executing_holder t₁ h1
  have a2 := inv.executing_holder t₂ h2
  rw [a1] at a2
  exact Option.some_injective _ a2

/-- Witness for C1 at a concrete reachable state of a two-caller system. -/
theorem spec_C1_witness :
    (∀ t₁ t₂ : Fin 2, (RunState.init 2).phase t₁ = .executing →
      (RunState.init 2).phase t₂ = .executing → t₁ = t₂) ∧
    (∀ pre, pre <+: (RunState.init 2).trace → (openWindows pre).length ≤ 1) ∧
    enterTasks (RunState.init 2).trace = (RunState.init 2).grants :=
  spec_C1_native_calls_serialized (fun _ => false) (RunState.init 2)
    Relation.ReflTransGen.refl

/-- C2: in every reachable state of the serializer, a caller that has
completed — its operation having returned or raised alike — no longer holds
the Access Permit, and from every reachable state the system can always run
on to a state in which every submitted operation has completed and the
permit is free, so a subsequent `run_eventkit` call is never permanently
blocked by an earlier call whose operation raised. -/
theorem spec_C2_permit_released_on_completion {n : ℕ} (raises : Fin n → Bool)
    (s : RunState n) (h : RunReachable n raises s) :
    (∀ t, (s.phase t).isFinished = true → s.holder ≠ some t) ∧
    (∃ s', Relation.ReflTransGen (RunStep n raises) s s' ∧
      (∀ t, (s'.phase t).isFinished = true) ∧ s'.holder = none) := by
  constructor
  · intro t hfin hcon
    have hex := (runReachable_inv h).holder_executing t hcon
    rw [hex] at hfin
    simp [TaskPhase.isFinished] at hfin
  · exact run_completion (remainingWork s) s h le_rfl

/-- Witness for C2 at a concrete state of a two-caller system in which both
operations raise. -/
theorem spec_C2_witness :
    (∀ t, ((RunState.init 2).phase t).isFinished = true →
      (RunState.init 2).holder ≠ some t) ∧
    (∃ s', Relation.ReflTransGen (RunStep 2 (fun _ => true))
        (RunState.init 2) s' ∧
      (∀ t, (s'.phase t).isFinished = true) ∧ s'.holder = none) :=
  spec_C2_permit_released_on_completion (fun _ => true) (RunState.init 2)
    Relation.ReflTransGen.refl

/-- C3 counterexample: with the user denying the prompt, the first
`get_instance()` call fails with `AccessDenied` having initiated one
permission handshake, and a second `get_instance()` call initiates a second
handshake (the failed attempt never committed `_instance`, so the
double-checked constructor runs again) — refuting the claim that no
subsequent `get_instance()` call initiates a new permission handshake. -/
theorem spec_C3_counterexample :
    ((get_instance (fun _ => .denied) ⟨none, 0⟩).2
      = Except.error RemErr.accessDenied) ∧
    ((get_instance (fun _ => .denied) ⟨none, 0⟩).1.handshakes = 1) ∧
    ((get_instance (fun _ => .denied)
      (get_instance (fun _ => .denied) ⟨none, 0⟩).1).1.handshakes = 2) :=
  ⟨rfl, rfl, rfl⟩

/-- C3 (amended): an `AccessDenied` failure raises out of `get_instance()`,
leaves the singleton uncommitted, and performs exactly one handshake in the
failing call (no automatic in-call retry); a subsequent `get_instance()`
call then initiates a fresh permission handshake. -/
theorem spec_C3_denied_leaves_singleton_unset (env : ℕ → PermResponse)
    (s : ProcState) (hinst : s.inst = none)
    (hdeny : env s.handshakes = .denied) :
    (get_instance env s).2 = Except.error RemErr.accessDenied ∧
    (get_instance env s).1.inst = none ∧
    (get_instance env s).1.handshakes = s.handshakes + 1 ∧
    (get_instance env (get_instance env s).1).1.handshakes
      = s.handshakes + 2 := by
  cases h2 : env (s.handshakes + 1) <;>
    simp [get_instance, hinst, hdeny, h2]

/-- Witness for C3's amended theorem at a concrete environment and state. -/
theorem spec_C3_witness :
    ((⟨none, 0⟩ : ProcState).inst = none ∧
      (fun _ => PermResponse.denied) (⟨none, 0⟩ : ProcState).handshakes
        = PermResponse.denied) ∧
    ((get_instance (fun _ => PermResponse.denied) ⟨none, 0⟩).2
      = Except.error RemErr.accessDenied ∧
    (get_instance (fun _ => PermResponse.denied) ⟨none, 0⟩).1.inst = none ∧
    (get_instance (fun _ => PermResponse.denied) ⟨none, 0⟩).1.handshakes
      = (⟨none, 0⟩ : ProcState).handshakes + 1 ∧
    (get_instance (fun _ => PermResponse.denied)
      (get_instance (fun _ => PermResponse.denied) ⟨none, 0⟩).1).1.handshakes
      = (⟨none, 0⟩ : ProcState).handshakes + 2) :=
  ⟨⟨rfl, rfl⟩,
    spec_C3_denied_leaves_singleton_unset (fun _ => PermResponse.denied)
      ⟨none, 0⟩ rfl rfl⟩

/-- C4 counterexample: with the environment timeout setting parsed as 5, the
configured request timeout is 5 seconds, yet neither the permission-handshake
wait nor the fetch-completion wait uses that value as its deadline — both are
the fixed 60-second `DEFAULT_TIMEOUT` of `store.py`, which never reads the
environment. -/
theorem spec_C4_counterexample :
    REQUEST_TIMEOUT (some 5) = 5 ∧
    handshakeWaitTimeout ≠ REQUEST_TIMEOUT (some 5) ∧
    fetchWaitTimeout ≠ REQUEST_TIMEOUT (some 5) := by
  refine ⟨rfl, ?_, ?_⟩ <;>
    norm_num [handshakeWaitTimeout, fetchWaitTimeout, REQUEST_TIMEOUT,
      DEFAULT_TIMEOUT]

/-- C4 (amended): the environment-configurable `REQUEST_TIMEOUT` setting
defaults to 60 seconds and takes any configured value, but the
permission-handshake and fetch-completion waits use the fixed 60-second
`DEFAULT_TIMEOUT` of `store.py` as their deadline regardless of the
environment setting. -/
theorem spec_C4_timeouts :
    REQUEST_TIMEOUT none = 60 ∧
    (∀ v : ℚ, REQUEST_TIMEOUT (some v) = v) ∧
    handshakeWaitTimeout = 60 ∧
    fetchWaitTimeout = 60 := by
  refine ⟨rfl, fun v => rfl, ?_, ?_⟩ <;>
    norm_num [handshakeWaitTimeout, fetchWaitTimeout, DEFAULT_TIMEOUT]

/-! ### Batch loop characterizations -/

theorem completeLoop_eq (res : String → Except String ReminderData) :
    ∀ (ids : List String) (acc : BatchResult),
      completeLoop res ids acc =
        ⟨acc.successes + (ids.filter fun i => (res i).isOk).length,
         acc.failures + (ids.filter fun i => !(res i).isOk).length,
         acc.failed_ids ++ ids.filter (fun i => !(res i).isOk),
         acc.errors ++ (ids.filter (fun i => !(res i).isOk)).map (errMsg res)⟩ := by
  intro ids
  induction ids with
  | nil => intro acc; simp [completeLoop]
  | cons i rest ih =>
    intro acc
    cases hres : res i with
    | ok d =>
      simp only [completeLoop, hres]
      rw [ih]
      simp [List.filter_cons, hres, Except.isOk, Except.toBool, BatchResult.mk.injEq]
      omega
    | error e =>
      simp only [completeLoop, hres]
      rw [ih]
      simp [List.filter_cons, hres, errMsg, Except.isOk, Except.toBool, BatchResult.mk.injEq]
      omega

theorem deleteLoop_eq (res : String → Except String Bool) :
    ∀ (ids : List String) (acc : BatchResult),
      deleteLoop res ids acc =
        ⟨acc.successes + (ids.filter fun i => (res i).isOk).length,
         acc.failures + (ids.filter fun i => !(res i).isOk).length,
         acc.failed_ids ++ ids.filter (fun i => !(res i).isOk),
         acc.errors ++ (ids.filter (fun i => !(res i).isOk)).map (errMsg res)⟩ := by
  intro ids
  induction ids with
  | nil => intro acc; simp [deleteLoop]
  | cons i rest ih =>
    intro acc
    cases hres : res i with
    | ok d =>
      simp only [deleteLoop, hres]
      rw [ih]
      simp [List.filter_cons, hres, Except.isOk, Except.toBool, BatchResult.mk.injEq]
      omega
    | error e =>
      simp only [deleteLoop, hres]
      rw [ih]
      simp [List.filter_cons, hres, errMsg, Except.isOk, Except.toBool, BatchResult.mk.injEq]
      omega

theorem add_reminders_eq (create : String → Except String ReminderData) :
    ∀ items : List String,
      add_reminders create items
        = items.filterMap (fun t => (create t).toOption) := by
  intro items
  induction items with
  | nil => simp [add_reminders]
  | cons t rest ih =>
    cases hc : create t with
    | ok d => simp [add_reminders, hc, ih, List.filterMap_cons, Except.toOption]
    | error e => simp [add_reminders, hc, ih, List.filterMap_cons, Except.toOption]

/-- C5 evidence: `get_reminders` and `list_reminder_lists` wrap their
(possibly empty) collections in the named fields `"reminders"` and `"lists"`,
but `search_reminders` returns its result as a bare list for every input —
in particular a bare empty list for a query matching zero items — even
though the repository's own test accesses the named `"reminders"` field on
its result. -/
theorem spec_C5_search_returns_bare_list :
    search_reminders [] "milk" 0 none = ToolReturn.bare [] ∧
    (search_reminders [] "milk" 0 none).isWrapped = false ∧
    (∀ fetched query offset limit,
      (search_reminders fetched query offset limit).isWrapped = false) ∧
    get_reminders [] 0 none = ToolReturn.wrapped "reminders" [] ∧
    list_reminder_lists [] = ToolReturn.wrapped "lists" [] :=
  ⟨rfl, rfl, fun _ _ _ _ => rfl, rfl, rfl⟩

/-- C6: `complete_reminders` processes every id (total, never raising for an
item failure, never aborting early), its successes and failures sum to the
number of input ids, its `failed_ids` are exactly the failing ids in input
order, and on `["a", "b", "c"]` with only `"b"` failing it returns
`successes = 2`, `failures = 1`, `failed_ids = ["b"]`. -/
theorem spec_C6_complete_reminders_batch :
    (∀ (res : String → Except String ReminderData) (ids : List String),
      (complete_reminders res ids).successes
          + (complete_reminders res ids).failures = ids.length ∧
      (complete_reminders res ids).failed_ids
          = ids.filter (fun i => !(res i).isOk)) ∧
    (complete_reminders onlyBFails ["a", "b", "c"]).successes = 2 ∧
    (complete_reminders onlyBFails ["a", "b", "c"]).failures = 1 ∧
    (complete_reminders onlyBFails ["a", "b", "c"]).failed_ids = ["b"] := by
  refine ⟨fun res ids => ⟨?_, ?_⟩, ?_, ?_, ?_⟩
  · rw [complete_reminders, completeLoop_eq]
    have hp := (List.filter_append_perm (fun i => (res i).isOk) ids).length_eq
    simp only [List.length_append] at hp
    simp only []
    omega
  · rw [complete_reminders, completeLoop_eq]
    simp
  · rfl
  · rfl
  · rfl

/-- C7 counterexample: `add_reminders` with one failing item returns the bare
list of created reminders with the failure silently dropped — its result on
the failing input `["x"]` is empty and indistinguishable from the result on
the empty input, so the failed item appears in no failure report. -/
theorem spec_C7_counterexample :
    add_reminders (fun _ => .error "save failed") ["x"] = [] ∧
    add_reminders (fun _ => .error "save failed") ["x"]
      = add_reminders (fun _ => .error "save failed") [] :=
  ⟨rfl, rfl⟩

/-- C7 (amended): `complete_reminders` and `delete_reminders` report every
per-item failure individually (each failing id appears in `failed_ids`, with
matching failure count and one recorded error message per failure), but
`add_reminders` returns only the successfully created reminders and silently
skips failed items, reporting no failures. -/
theorem spec_C7_batch_failure_reporting :
    (∀ (res : String → Except String ReminderData) (ids : List String),
      (complete_reminders res ids).failed_ids
          = ids.filter (fun i => !(res i).isOk) ∧
      (complete_reminders res ids).failures
          = (ids.filter (fun i => !(res i).isOk)).length ∧
      (complete_reminders res ids).errors.length
          = (complete_reminders res ids).failures) ∧
    (∀ (res : String → Except String Bool) (ids : List String),
      (delete_reminders res ids).failed_ids
          = ids.filter (fun i => !(res i).isOk) ∧
      (delete_reminders res ids).failures
          = (ids.filter (fun i => !(res i).isOk)).length ∧
      (delete_reminders res ids).errors.length
          = (delete_reminders res ids).failures) ∧
    (∀ (create : String → Except String ReminderData) (items : List String),
      add_reminders create items
        = items.filterMap (fun t => (create t).toOption)) := by
  refine ⟨fun res ids => ?_, fun res ids => ?_, add_reminders_eq⟩
  · rw [complete_reminders, completeLoop_eq]
    simp
  · rw [delete_reminders, deleteLoop_eq]
    simp

/-! ### The update path, field by field -/

theorem applyReminderUpdate_eq (r : EKReminderM)
    (title notes url : Option String)
    (due_date start_date : Option DatetimeM)
    (priority : Option ℤ)
    (location : Option LocationTriggerM)
    (clear_location : Bool) :
    applyReminderUpdate r title notes url due_date start_date priority
        location clear_location =
      { title := title.getD r.title
        notes := notes.elim r.notes some
        url := url.elim r.url some
        dueDateComponents :=
          due_date.elim r.dueDateComponents
            (fun d => some (datetime_to_components d))
        startDateComponents :=
          start_date.elim r.startDateComponents
            (fun sd => some (datetime_to_components sd))
        priority := priority.getD r.priority
        alarms :=
          if clear_location then
            r.alarms.filter (fun a => a.structuredLocation.isNone)
          else
            match location with
            | some loc =>
              r.alarms.filter (fun a => a.structuredLocation.isNone)
                ++ [location_trigger_to_ek_alarm loc]
            | none => r.alarms
        isCompleted := r.isCompleted } := by
  cases title <;> cases notes <;> cases url <;> cases due_date <;>
    cases start_date <;> cases priority <;> cases clear_location <;>
    cases location <;> rfl

/-- C8: `update_reminder` on an existing reminder applies partial-update
semantics — every field passed as `None` (title, notes, url, due_date,
start_date, priority) leaves the stored reminder's corresponding field
unchanged, and with `location = None` and `clear_location = False` the
reminder's alarms are unchanged too (completion state is never touched by
this path). -/
theorem spec_C8_partial_update (st : StoreM) (save : EKReminderM → Bool)
    (rid : String) (r r' : EKReminderM)
    (title notes url : Option String)
    (due_date start_date : Option DatetimeM)
    (priority : Option PriorityM)
    (location : Option LocationTriggerM) (clear_location : Bool)
    (hfound : getReminderById st rid = .ok r)
    (hres : update_reminder st save rid title notes url due_date start_date
      priority location clear_location = .ok r') :
    (title = none → r'.title = r.title) ∧
    (notes = none → r'.notes = r.notes) ∧
    (url = none → r'.url = r.url) ∧
    (due_date = none → r'.dueDateComponents = r.dueDateComponents) ∧
    (start_date = none → r'.startDateComponents = r.startDateComponents) ∧
    (priority = none → r'.priority = r.priority) ∧
    (location = none → clear_location = false → r'.alarms = r.alarms) ∧
    r'.isCompleted = r.isCompleted := by
  unfold update_reminder update_reminder_sync at hres
  rw [hfound] at hres
  dsimp only at hres
  by_cases hs :
      save (applyReminderUpdate r title notes url due_date start_date
        (priority.map PriorityM.toInt) location clear_location) = true
  · rw [if_pos hs] at hres
    have hr' :
        applyReminderUpdate r title notes url due_date start_date
          (priority.map PriorityM.toInt) location clear_location = r' := by
      simpa using hres
    subst hr'
    rw [applyReminderUpdate_eq]
    refine ⟨?_, ?_, ?_, ?_, ?_, ?_, ?_, rfl⟩
    · intro h; subst h; rfl
    · intro h; subst h; rfl
    · intro h; subst h; rfl
    · intro h; subst h; rfl
    · intro h; subst h; rfl
    · intro h; subst h; rfl
    · intro h1 h2; subst h1; subst h2; rfl
  · rw [if_neg hs] at hres
    cases hres

/-- Witness for C8: an all-`None` update of a concretely stored reminder
leaves it unchanged. -/
theorem spec_C8_witness :
    (getReminderById sampleStore "r1" = .ok sampleReminder ∧
      update_reminder sampleStore (fun _ => true) "r1" none none none none
        none none none false = .ok sampleReminder) ∧
    ((none = (none : Option String) → sampleReminder.title = sampleReminder.title) ∧
     (none = (none : Option String) → sampleReminder.notes = sampleReminder.notes) ∧
     (none = (none : Option String) → sampleReminder.url = sampleReminder.url) ∧
     (none = (none : Option DatetimeM) →
       sampleReminder.dueDateComponents = sampleReminder.dueDateComponents) ∧
     (none = (none : Option DatetimeM) →
       sampleReminder.startDateComponents = sampleReminder.startDateComponents) ∧
     (none = (none : Option PriorityM) →
       sampleReminder.priority = sampleReminder.priority) ∧
     (none = (none : Option LocationTriggerM) → false = false →
       sampleReminder.alarms = sampleReminder.alarms) ∧
     sampleReminder.isCompleted = sampleReminder.isCompleted) :=
  ⟨⟨rfl, rfl⟩,
    spec_C8_partial_update sampleStore (fun _ => true) "r1" sampleReminder
      sampleReminder none none none none none none none false rfl rfl⟩

/-- C9: over an underlying fetched list of five reminders,
`get_reminders(limit=2, offset=2)` returns exactly the items at 0-indexed
positions 2 and 3, `get_reminders(limit=2, offset=0)` returns exactly
positions 0 and 1, and (the five items being distinct) the two pages are
disjoint. -/
theorem spec_C9_pagination (a b c d e : ReminderData)
    (hnd : [a, b, c, d, e].Nodup) :
    (get_reminders [a, b, c, d, e] 2 (some 2)).items = [c, d] ∧
    (get_reminders [a, b, c, d, e] 0 (some 2)).items = [a, b] ∧
    (get_reminders [a, b, c, d, e] 2 (some 2)).items.Disjoint
      (get_reminders [a, b, c, d, e] 0 (some 2)).items := by
  refine ⟨rfl, rfl, ?_⟩
  show List.Disjoint [c, d] [a, b]
  simp only [List.nodup_cons, List.mem_cons, List.not_mem_nil, or_false,
    not_or, List.mem_singleton, List.nodup_nil, and_true] at hnd
  intro x hx hy
  simp only [List.mem_cons, List.not_mem_nil, or_false,
    List.mem_singleton] at hx hy
  rcases hx with rfl | rfl <;> rcases hy with h | h <;> simp_all

/-- Witness for C9 at five concrete distinct reminders. -/
theorem spec_C9_witness :
    (get_reminders [⟨"1", none, none⟩, ⟨"2", none, none⟩, ⟨"3", none, none⟩,
        ⟨"4", none, none⟩, ⟨"5", none, none⟩] 2 (some 2)).items
      = [⟨"3", none, none⟩, ⟨"4", none, none⟩] ∧
    (get_reminders [⟨"1", none, none⟩, ⟨"2", none, none⟩, ⟨"3", none, none⟩,
        ⟨"4", none, none⟩, ⟨"5", none, none⟩] 0 (some 2)).items
      = [⟨"1", none, none⟩, ⟨"2", none, none⟩] ∧
    (get_reminders [⟨"1", none, none⟩, ⟨"2", none, none⟩, ⟨"3", none, none⟩,
        ⟨"4", none, none⟩, ⟨"5", none, none⟩] 2 (some 2)).items.Disjoint
      (get_reminders [⟨"1", none, none⟩, ⟨"2", none, none⟩, ⟨"3", none, none⟩,
        ⟨"4", none, none⟩, ⟨"5", none, none⟩] 0 (some 2)).items :=
  spec_C9_pagination ⟨"1", none, none⟩ ⟨"2", none, none⟩ ⟨"3", none, none⟩
    ⟨"4", none, none⟩ ⟨"5", none, none⟩ (by decide)

/-! ### Search semantics -/

theorem containsSub_iff {α : Type} [DecidableEq α] (hay needle : List α) :
    containsSub hay needle = true ↔ needle <:+: hay := by
  induction hay with
  | nil =>
    simp [containsSub, List.isPrefixOf_iff_prefix]
  | cons x t ih =>
    rw [containsSub]
    simp [List.isPrefixOf_iff_prefix, ih, List.infix_cons_iff]

theorem paginate_subset (l : List α) (offset : ℕ) (limit : Option ℕ) :
    paginate l offset limit ⊆ l := by
  unfold paginate
  cases limit with
  | some k =>
    by_cases hoff : offset ≠ 0
    · rw [if_pos hoff]
      intro x hx
      exact List.drop_subset _ _ (List.take_subset _ _ hx)
    · rw [if_neg hoff]
      intro x hx
      exact List.take_subset _ _ hx
  | none =>
    by_cases hoff : offset ≠ 0
    · rw [if_pos hoff]
      exact List.drop_subset _ _
    · rw [if_neg hoff]
      exact fun x hx => hx

/-- C10: every reminder returned by `search_reminders` contains the query,
compared case-insensitively, as a contiguous substring of its title or of its
notes (a missing title or notes counting as the empty string); the matching
list built before pagination is a sublist of the fetched list (fetch order
preserved) and contains every fetched reminder satisfying that condition. -/
theorem spec_C10_search_substring (fetched : List ReminderData)
    (query : String) (offset : ℕ) (limit : Option ℕ) :
    (∀ d ∈ (search_reminders fetched query offset limit).items,
      query.toLower.data <:+: (d.title.getD "").toLower.data ∨
      query.toLower.data <:+: (d.notes.getD "").toLower.data) ∧
    (searchMatching fetched query).Sublist fetched ∧
    (∀ d ∈ fetched,
      (query.toLower.data <:+: (d.title.getD "").toLower.data ∨
       query.toLower.data <:+: (d.notes.getD "").toLower.data) →
      d ∈ searchMatching fetched query) := by
  refine ⟨?_, List.filter_sublist fetched, ?_⟩
  · intro d hd
    have hmem : d ∈ searchMatching fetched query :=
      paginate_subset _ offset limit hd
    have hmatch : searchMatches query d = true :=
      (List.mem_filter.mp hmem).2
    simp only [searchMatches, strContains, Bool.or_eq_true,
      containsSub_iff] at hmatch
    exact hmatch
  · intro d hd hcond
    refine List.mem_filter.mpr ⟨hd, ?_⟩
    simp only [searchMatches, strContains, Bool.or_eq_true, containsSub_iff]
    exact hcond

/-- Witness for C10 at a concrete fetched list and query. -/
theorem spec_C10_witness :
    (∀ d ∈ (search_reminders [⟨"1", some "Buy Milk", none⟩]
        "milk" 0 none).items,
      "milk".toLower.data <:+: (d.title.getD "").toLower.data ∨
      "milk".toLower.data <:+: (d.notes.getD "").toLower.data) ∧
    (searchMatching [⟨"1", some "Buy Milk", none⟩] "milk").Sublist
      [⟨"1", some "Buy Milk", none⟩] ∧
    (∀ d ∈ [(⟨"1", some "Buy Milk", none⟩ : ReminderData)],
      ("milk".toLower.data <:+: (d.title.getD "").toLower.data ∨
       "milk".toLower.data <:+: (d.notes.getD "").toLower.data) →
      d ∈ searchMatching [⟨"1", some "Buy Milk", none⟩] "milk") :=
  spec_C10_search_substring [⟨"1", some "Buy Milk", none⟩] "milk" 0 none

end JonsMcpReminders
